import Mathlib

/-
Verification of the qrgenerator.py specification claims.

Strings from the Python source are embedded as `List Char`; the Python
`dict` built by `parse_wifi_qr` is embedded as an insertion-ordered
association list whose update operation overwrites the value of an
existing key in place (Python dict semantics).  Fallible calls into the
external libraries (pyqrcode, PIL, pyzbar, file writes) are embedded as
Boolean oracles / `Option` results.
-/

namespace QrGen

/-- The literal pattern removed by `parse_wifi_qr`:
`wifi_string.replace('WIFI:', '')`. -/
def wifiTag : List Char := ['W', 'I', 'F', 'I', ':']

/-- Embedding of Python `s.replace('WIFI:', '')`: scan left to right,
removing every (non-overlapping) occurrence of `WIFI:`. -/
def replaceWifi : List Char → List Char
  | 'W' :: 'I' :: 'F' :: 'I' :: ':' :: rest => replaceWifi rest
  | c :: rest => c :: replaceWifi rest
  | [] => []

/-- Embedding of Python `s.split(';')` (single-character separator). -/
def splitSemi : List Char → List (List Char)
  | [] => [[]]
  | c :: rest =>
    if c == ';' then [] :: splitSemi rest
    else
      match splitSemi rest with
      | [] => [[c]]
      | s :: ss => (c :: s) :: ss

/-- Embedding of `part.split(':', 1)` guarded by `if ':' in part`:
returns `none` when the segment has no colon, otherwise the text before
the first colon and the text after it. -/
def splitOnce : List Char → Option (List Char × List Char)
  | [] => none
  | c :: rest =>
    if c == ':' then some ([], rest)
    else (splitOnce rest).map (fun kv => (c :: kv.1, kv.2))

/-- `wifi_info[key] = value`: overwrite in place when the key exists,
otherwise append (Python dict insertion order). -/
def dictInsert (m : List (List Char × List Char)) (k v : List Char) :
    List (List Char × List Char) :=
  if m.any (fun kv => kv.1 == k) then
    m.map (fun kv => if kv.1 == k then (k, v) else kv)
  else
    m ++ [(k, v)]

/-- One iteration of the `for part in parts` loop of `parse_wifi_qr`. -/
def wifiStep (m : List (List Char × List Char)) (part : List Char) :
    List (List Char × List Char) :=
  match splitOnce part with
  | some kv => dictInsert m kv.1 kv.2
  | none => m

/-- The whole `for part in parts` loop of `parse_wifi_qr`, started from
the empty dict. -/
def wifiInfoFold (parts : List (List Char)) : List (List Char × List Char) :=
  parts.foldl wifiStep []

/-- Embedding of `parse_wifi_qr`: remove every occurrence of `WIFI:`,
split on `;`, and insert a key/value pair for each segment containing a
colon. -/
def parse_wifi_qr (s : List Char) : List (List Char × List Char) :=
  wifiInfoFold (splitSemi (replaceWifi s))

/-- Embedding of `wifi_info.get(key)` (no default): the value stored at
`key`, if any. -/
def dictGet (m : List (List Char × List Char)) (k : List Char) :
    Option (List Char) :=
  (m.find? (fun kv => kv.1 == k)).map Prod.snd

/-- Embedding of the payload built by `generate_wifi_qr`:
`f"WIFI:T:{security};S:{ssid};P:{password};H:{hidden_flag};;"` with
`hidden_flag = 'true' if hidden else 'false'`. -/
def generate_wifi_string (ssid password security : List Char)
    (hidden : Bool) : List Char :=
  "WIFI:T:".toList ++ (security ++ (";S:".toList ++ (ssid ++ (";P:".toList ++
    (password ++ (";H:".toList ++
      ((if hidden then "true".toList else "false".toList) ++
        ";;".toList)))))))

/-- Modelled from the words of claim C2 (not from the source): remove
only a LEADING `WIFI:` marker, leaving text elsewhere untouched, then
process segments exactly as `parse_wifi_qr` does.  Used to compare the
claimed decode against the implemented one. -/
def stripLeadingWifi (s : List Char) : List Char :=
  if wifiTag.isPrefixOf s then s.drop 5 else s

/-- The decode operation as claim C2 describes it. -/
def claimDecode (s : List Char) : List (List Char × List Char) :=
  wifiInfoFold (splitSemi (stripLeadingWifi s))

/-- The classification outcome of the `if/elif` chain in `read_qr`. -/
inductive PayloadClass
  | wifi
  | url
  | phoneNum
  | email
  | plain
deriving DecidableEq

/-- Embedding of the prefix-classification chain of `read_qr`
(lines 180-187): tested in order, first match wins. -/
def classify_payload (s : List Char) : PayloadClass :=
  if "WIFI:".toList.isPrefixOf s then PayloadClass.wifi
  else if "http".toList.isPrefixOf s then PayloadClass.url
  else if "tel:".toList.isPrefixOf s then PayloadClass.phoneNum
  else if "mailto:".toList.isPrefixOf s then PayloadClass.email
  else PayloadClass.plain

/-- Embedding of Python `str.strip()`: whitespace removed from both
ends. -/
def pyStrip (s : List Char) : List Char :=
  ((s.dropWhile Char.isWhitespace).reverse.dropWhile Char.isWhitespace).reverse

/-- Embedding of `validate_input`: empty (or all-whitespace) text and
text longer than 2953 characters are rejected. -/
def validate_input (text : List Char) : Bool × String :=
  if text = [] ∨ pyStrip text = [] then
    (false, "Input text cannot be empty")
  else if text.length > 2953 then
    (false, "Input text is too long for QR code")
  else
    (true, "Valid")

/-- The fixed color table of `generate_colored_qr`. -/
def color_map : List (String × (Nat × Nat × Nat)) :=
  [("black", (0, 0, 0)), ("white", (255, 255, 255)), ("red", (255, 0, 0)),
   ("green", (0, 255, 0)), ("blue", (0, 0, 255)), ("yellow", (255, 255, 0)),
   ("purple", (128, 0, 128)), ("orange", (255, 165, 0)),
   ("pink", (255, 192, 203)), ("cyan", (0, 255, 255)), ("navy", (0, 0, 128)),
   ("darkgreen", (0, 100, 0))]

/-- Embedding of Python `str.lower()`, mapping `Char.toLower` over the
character data (the ASCII range, which covers every name involved). -/
def pyLower (s : String) : String :=
  String.mk (s.data.map Char.toLower)

/-- `color_map.get(name)` as an optional association-list lookup. -/
def colorLookup (name : String) : Option (Nat × Nat × Nat) :=
  (color_map.find? (fun e => e.1 == name)).map Prod.snd

/-- `color_map.get(fg_color.lower(), (0, 0, 0))`. -/
def resolve_fg_color (name : String) : Nat × Nat × Nat :=
  (colorLookup (pyLower name)).getD (0, 0, 0)

/-- `color_map.get(bg_color.lower(), (255, 255, 255))`. -/
def resolve_bg_color (name : String) : Nat × Nat × Nat :=
  (colorLookup (pyLower name)).getD (255, 255, 255)

/-- `modules[row][col]` of the QR matrix. -/
def cellAt (m : List (List Bool)) (r c : Nat) : Bool :=
  (m.getD r []).getD c false

/-- The pixels painted by PIL
`draw.rectangle([x1, y1, x2, y2], fill=fg)` for the module at `(r, c)`
with `x1 = c*scale`, `x2 = x1 + scale` (scale = 10): the rectangle
includes both corner coordinates and is clipped to the image bounds. -/
def covers (size r c x y : Nat) : Prop :=
  c * 10 ≤ x ∧ x ≤ c * 10 + 10 ∧ r * 10 ≤ y ∧ y ≤ r * 10 + 10 ∧
    x < size ∧ y < size

instance (size r c x y : Nat) : Decidable (covers size r c x y) := by
  unfold covers
  infer_instance

/-- Applying one rectangle fill to the image. -/
def paintCell (size : Nat) (fg : Nat × Nat × Nat) (r c : Nat)
    (img : Nat → Nat → Nat × Nat × Nat) : Nat → Nat → Nat × Nat × Nat :=
  fun x y => if covers size r c x y then fg else img x y

/-- The inner `for col in range(module_count)` loop at a fixed row. -/
def drawRowFold (m : List (List Bool)) (size : Nat) (fg : Nat × Nat × Nat)
    (r : Nat) (img : Nat → Nat → Nat × Nat × Nat) :
    Nat → Nat → Nat × Nat × Nat :=
  (List.range m.length).foldl
    (fun im c => if cellAt m r c then paintCell size fg r c im else im) img

/-- The outer `for row in range(module_count)` loop. -/
def drawModulesFold (m : List (List Bool)) (size : Nat)
    (fg : Nat × Nat × Nat) (img : Nat → Nat → Nat × Nat × Nat) :
    Nat → Nat → Nat × Nat × Nat :=
  (List.range m.length).foldl (fun im r => drawRowFold m size fg r im) img

/-- Pixel semantics of the custom raster path of `generate_colored_qr`:
resolve the two color names, fill a square of side
`module_count * scale` with the background color, then paint a block for
every true module. -/
def generate_colored_qr_pixels (m : List (List Bool))
    (fgName bgName : String) : Nat → Nat → Nat × Nat × Nat :=
  drawModulesFold m (m.length * 10) (resolve_fg_color fgName)
    (fun _ _ => resolve_bg_color bgName)

/-- Index of the first `true` entry of a row, if any. -/
def firstTrue : List Bool → Option Nat
  | [] => none
  | b :: rest => if b then some 0 else (firstTrue rest).map (· + 1)

/-- Helper for `firstDark`, carrying the index of the current row. -/
def firstDarkAux : Nat → List (List Bool) → Option (Nat × Nat)
  | _, [] => none
  | r, row :: rest =>
    match firstTrue row with
    | some c => some (r, c)
    | none => firstDarkAux (r + 1) rest

/-- The first dark module of the matrix in row-major order (the order of
the drawing loops). -/
def firstDark (m : List (List Bool)) : Option (Nat × Nat) :=
  firstDarkAux 0 m

/-- One artifact written to disk by the generator.  The `qrcodes/`
directory and the `.svg`/`.png` extension of the source's path strings
are folded into the constructor; `scaleArg` records the scale passed to
the external writer. -/
inductive Artifact
  | svgFile (path : String) (scaleArg : Nat)
  | pngBuiltin (path : String) (scaleArg : Nat)
  | pngCustom (path fgName bgName : String) (scaleArg : Nat)
deriving DecidableEq

/-- Success/failure oracles for the fallible external steps of the
generation pipeline: `pyqrcode.create` + terminal display, the SVG
write, the built-in `qr_code.png` writer, and the custom PIL
render-and-save. -/
structure Oracles where
  encodeOk : Bool
  svgOk : Bool
  pngOk : Bool
  customOk : Bool
deriving DecidableEq

/-- Outcome embedding of `generate_colored_qr` (lines 89-136): try the
custom PIL render; on any exception fall back to the built-in
black/white writer at the same output path and scale 10; `none` means
even the fallback raised. -/
def generate_colored_qr_m (o : Oracles) (path fgName bgName : String) :
    Option (List Artifact) :=
  if o.customOk then some [Artifact.pngCustom path fgName bgName 10]
  else if o.pngOk then some [Artifact.pngBuiltin path 10]
  else none

/-- The PNG branch of `generate_qr` (lines 49-58): built-in writer at
scale 10 for default black-on-white, custom renderer otherwise. -/
def pngStep (o : Oracles) (path fgName bgName : String) :
    Option (List Artifact) :=
  if fgName = "black" ∧ bgName = "white" then
    if o.pngOk then some [Artifact.pngBuiltin path 10] else none
  else generate_colored_qr_m o path fgName bgName

/-- Outcome embedding of `generate_qr` (lines 33-86): the whole body is
wrapped in one `try`, so the first raising step aborts the call, which
then returns `False`; otherwise it returns `True`.  The artifact list
records the files actually written before the call ended. -/
def generate_qr_m (o : Oracles) (_rawText : List Char) (fileName : String)
    (fmt fgName bgName : String) : Bool × List Artifact :=
  if o.encodeOk = false then (false, [])
  else if pyLower fmt = "svg" then
    if o.svgOk then (true, [Artifact.svgFile fileName 10]) else (false, [])
  else if pyLower fmt = "png" then
    match pngStep o fileName fgName bgName with
    | some arts => (true, arts)
    | none => (false, [])
  else if pyLower fmt = "both" then
    if o.svgOk = false then (false, [])
    else
      match pngStep o fileName fgName bgName with
      | some arts => (true, Artifact.svgFile fileName 10 :: arts)
      | none => (false, [Artifact.svgFile fileName 10])
  else (true, [])

/-- Outcome embedding of `generate_wifi_qr` (lines 139-153): build the
payload, default the file name to the timestamp-derived name `tsName`
when empty, and call `generate_qr` with only two positional arguments,
so the Python defaults `png`, `black`, `white` apply. -/
def generate_wifi_qr_m (o : Oracles) (ssid password security : List Char)
    (hidden : Bool) (fileName tsName : String) : Bool × List Artifact :=
  generate_qr_m o (generate_wifi_string ssid password security hidden)
    (if fileName = "" then tsName else fileName) "png" "black" "white"

/-- Outcome embedding of `read_qr` (lines 156-193): `pathExists` is the
`os.path.exists` test, `openOk` whether `Image.open` succeeded, `codes`
the list returned by the decode library, and `firstOk` whether decoding
the first result's bytes as UTF-8 (and printing the report) succeeded.
The whole body is wrapped in one `try`, so the function always returns a
Boolean and never raises. -/
def read_qr_m (pathExists openOk : Bool) (codes : List (List Char))
    (firstOk : Bool) : Bool :=
  if pathExists = false then false
  else if openOk = false then false
  else if codes = [] then false
  else firstOk

/-- No occurrence of the two-character pattern `I:` anywhere in the list.
Every occurrence of the marker `WIFI:` contains this pattern, so a list
satisfying this predicate is left unchanged by `replaceWifi`. -/
def noIColon (l : List Char) : Prop :=
  ∀ a b : List Char, l ≠ a ++ 'I' :: ':' :: b

lemma noIColon_nil : noIColon [] := by
  intro a b h
  exact absurd h (by simp)

lemma noIColon_cons (c : Char) (l : List Char) (h : noIColon l)
    (hc : c = 'I' → l.head? ≠ some ':') : noIColon (c :: l) := by
  intro a b heq
  cases a with
  | nil =>
    simp only [List.nil_append, List.cons.injEq] at heq
    exact hc heq.1 (by rw [heq.2]; rfl)
  | cons a0 a' =>
    simp only [List.cons_append, List.cons.injEq] at heq
    exact h a' b heq.2

lemma noIColon_cons_ne (c : Char) (l : List Char) (h : noIColon l)
    (hc : c ≠ 'I') : noIColon (c :: l) :=
  noIColon_cons c l h (fun h' => absurd h' hc)

lemma noIColon_tail {c : Char} {l : List Char} (h : noIColon (c :: l)) :
    noIColon l := by
  intro a b heq
  exact h (c :: a) b (by rw [heq]; rfl)

lemma noIColon_append (u v : List Char) (hu : ':' ∉ u) (hv : noIColon v)
    (hv2 : v.head? ≠ some ':') : noIColon (u ++ v) := by
  induction u with
  | nil => simpa using hv
  | cons c u' ih =>
    have hu' : ':' ∉ u' := fun hm => hu (List.mem_cons_of_mem _ hm)
    refine noIColon_cons c (u' ++ v) (ih hu') ?_
    intro _ hhead
    cases u' with
    | nil => exact hv2 hhead
    | cons d u'' =>
      simp only [List.cons_append, List.head?_cons, Option.some.injEq] at hhead
      subst hhead
      exact hu (List.mem_cons_of_mem _ (List.mem_cons_self _ _))

lemma replaceWifi_tag (l : List Char) :
    replaceWifi (wifiTag ++ l) = replaceWifi l := rfl

lemma replaceWifi_eq_self : ∀ {l : List Char}, noIColon l →
    replaceWifi l = l := by
  intro l
  induction l with
  | nil => intro _; rfl
  | cons c rest ih =>
    intro h
    rw [replaceWifi.eq_def]
    split
    next r heq =>
      exact absurd heq (h ['W', 'I', 'F'] r)
    next c' rest' heq =>
      injection heq with hc hrest
      subst hc
      subst hrest
      rw [ih (noIColon_tail h)]
    next heq =>
      exact absurd heq (by simp)

lemma splitSemi_append (u v : List Char) (hu : ';' ∉ u) :
    splitSemi (u ++ ';' :: v) = u :: splitSemi v := by
  induction u with
  | nil => simp [splitSemi]
  | cons c u' ih =>
    have hc : (c == ';') = false := by
      simp only [beq_eq_false_iff_ne]
      intro hcc
      exact hu (by rw [hcc]; exact List.mem_cons_self _ _)
    have ih' := ih (fun hm => hu (List.mem_cons_of_mem _ hm))
    simp only [List.cons_append, splitSemi, hc, Bool.false_eq_true,
      if_false, List.append_eq, ih']

lemma head_semi_ne (x : List Char) : (';' :: x).head? ≠ some ':' := by
  simp

/-- Decoding the exact payload shape produced by `generate_wifi_qr`, for
any security and hidden-flag text free of the delimiters. -/
lemma parse_encode (ssid password sec flag : List Char)
    (hs1 : ';' ∉ ssid) (hs2 : ':' ∉ ssid)
    (hp1 : ';' ∉ password) (hp2 : ':' ∉ password)
    (hc1 : ';' ∉ sec) (hc2 : ':' ∉ sec)
    (hf1 : ';' ∉ flag) (hf2 : ':' ∉ flag) :
    parse_wifi_qr (wifiTag ++ (('T' :: ':' :: sec) ++ ';' ::
      (('S' :: ':' :: ssid) ++ ';' :: (('P' :: ':' :: password) ++ ';' ::
        (('H' :: ':' :: flag) ++ ';' :: [';']))))) =
      [(['T'], sec), (['S'], ssid), (['P'], password), (['H'], flag)] := by
  have hni : noIColon (('T' :: ':' :: sec) ++ ';' ::
      (('S' :: ':' :: ssid) ++ ';' :: (('P' :: ':' :: password) ++ ';' ::
        (('H' :: ':' :: flag) ++ ';' :: [';'])))) := by
    have n3 : noIColon (flag ++ [';', ';']) :=
      noIColon_append _ _ hf2
        (noIColon_cons_ne _ _ (noIColon_cons_ne _ _ noIColon_nil
          (by decide)) (by decide)) (head_semi_ne _)
    have n7 : noIColon (password ++ ';' :: 'H' :: ':' ::
        (flag ++ [';', ';'])) :=
      noIColon_append _ _ hp2
        (noIColon_cons_ne _ _ (noIColon_cons_ne _ _ (noIColon_cons_ne _ _
          n3 (by decide)) (by decide)) (by decide)) (head_semi_ne _)
    have n11 : noIColon (ssid ++ ';' :: 'P' :: ':' ::
        (password ++ ';' :: 'H' :: ':' :: (flag ++ [';', ';']))) :=
      noIColon_append _ _ hs2
        (noIColon_cons_ne _ _ (noIColon_cons_ne _ _ (noIColon_cons_ne _ _
          n7 (by decide)) (by decide)) (by decide)) (head_semi_ne _)
    have n15 : noIColon (sec ++ ';' :: 'S' :: ':' ::
        (ssid ++ ';' :: 'P' :: ':' ::
          (password ++ ';' :: 'H' :: ':' :: (flag ++ [';', ';'])))) :=
      noIColon_append _ _ hc2
        (noIColon_cons_ne _ _ (noIColon_cons_ne _ _ (noIColon_cons_ne _ _
          n11 (by decide)) (by decide)) (by decide)) (head_semi_ne _)
    exact noIColon_cons_ne 'T' _ (noIColon_cons_ne ':' _ n15 (by decide))
      (by decide)
  have m1 : ';' ∉ ('T' :: ':' :: sec) := by
    intro hmem
    simp only [List.mem_cons] at hmem
    rcases hmem with h | h | h
    · exact absurd h (by decide)
    · exact absurd h (by decide)
    · exact hc1 h
  have m2 : ';' ∉ ('S' :: ':' :: ssid) := by
    intro hmem
    simp only [List.mem_cons] at hmem
    rcases hmem with h | h | h
    · exact absurd h (by decide)
    · exact absurd h (by decide)
    · exact hs1 h
  have m3 : ';' ∉ ('P' :: ':' :: password) := by
    intro hmem
    simp only [List.mem_cons] at hmem
    rcases hmem with h | h | h
    · exact absurd h (by decide)
    · exact absurd h (by decide)
    · exact hp1 h
  have m4 : ';' ∉ ('H' :: ':' :: flag) := by
    intro hmem
    simp only [List.mem_cons] at hmem
    rcases hmem with h | h | h
    · exact absurd h (by decide)
    · exact absurd h (by decide)
    · exact hf1 h
  show wifiInfoFold (splitSemi (replaceWifi (wifiTag ++ _))) = _
  rw [replaceWifi_tag, replaceWifi_eq_self hni, splitSemi_append _ _ m1,
    splitSemi_append _ _ m2, splitSemi_append _ _ m3,
    splitSemi_append _ _ m4]
  rfl

/-- C1: Round-trip law of the WiFi payload codec.  For every ssid and
password free of `;` and `:`, every security in WPA, WEP, nopass and
every hidden flag, decoding the encoded payload yields exactly the
mapping T = security, S = ssid, P = password, H = the text true/false
matching hidden (in payload order). -/
theorem C1_wifi_roundtrip (ssid password security : List Char)
    (hidden : Bool)
    (hs1 : ';' ∉ ssid) (hs2 : ':' ∉ ssid)
    (hp1 : ';' ∉ password) (hp2 : ':' ∉ password)
    (hsec : security = "WPA".toList ∨ security = "WEP".toList ∨
      security = "nopass".toList) :
    parse_wifi_qr (generate_wifi_string ssid password security hidden) =
      [(['T'], security), (['S'], ssid), (['P'], password),
       (['H'], if hidden then "true".toList else "false".toList)] := by
  have hc1 : ';' ∉ security := by
    rcases hsec with h | h | h <;> rw [h] <;> decide
  have hc2 : ':' ∉ security := by
    rcases hsec with h | h | h <;> rw [h] <;> decide
  have hf1 : ';' ∉ (if hidden then "true".toList else "false".toList) := by
    cases hidden <;> decide
  have hf2 : ':' ∉ (if hidden then "true".toList else "false".toList) := by
    cases hidden <;> decide
  exact parse_encode ssid password security _ hs1 hs2 hp1 hp2 hc1 hc2 hf1 hf2

/-- Witness for C1 at concrete inputs (HomeNet / secret123 / WPA /
not hidden). -/
theorem C1_wifi_roundtrip_witness :
    parse_wifi_qr (generate_wifi_string "HomeNet".toList "secret123".toList
        "WPA".toList false) =
      [(['T'], "WPA".toList), (['S'], "HomeNet".toList),
       (['P'], "secret123".toList), (['H'], "false".toList)] :=
  C1_wifi_roundtrip _ _ _ false (by decide) (by decide) (by decide)
    (by decide) (Or.inl rfl)

/-- C2 counterexample: the implemented decode removes every occurrence
of the marker, not only a leading one.  On the payload WIFI:S:aWIFI:b;
the code yields the mapping S = ab, while the claimed strip-only-leading
decode yields S = aWIFI:b, so the claim as stated is false. -/
theorem C2_decode_counterexample :
    parse_wifi_qr "WIFI:S:aWIFI:b;".toList = [(['S'], "ab".toList)] ∧
      claimDecode "WIFI:S:aWIFI:b;".toList =
        [(['S'], "aWIFI:b".toList)] ∧
      parse_wifi_qr "WIFI:S:aWIFI:b;".toList ≠
        claimDecode "WIFI:S:aWIFI:b;".toList := by
  decide

/-- C4: classification tests literal prefixes in the order WIFI:, http,
tel:, mailto:, applying only the first match; in particular httpfoo is
tagged as a URL. -/
theorem C4_classify_order : ∀ s : List Char,
    (classify_payload s = PayloadClass.wifi ↔
      "WIFI:".toList.isPrefixOf s = true) ∧
    (classify_payload s = PayloadClass.url ↔
      ("WIFI:".toList.isPrefixOf s = false ∧
        "http".toList.isPrefixOf s = true)) ∧
    (classify_payload s = PayloadClass.phoneNum ↔
      ("WIFI:".toList.isPrefixOf s = false ∧
        "http".toList.isPrefixOf s = false ∧
        "tel:".toList.isPrefixOf s = true)) ∧
    (classify_payload s = PayloadClass.email ↔
      ("WIFI:".toList.isPrefixOf s = false ∧
        "http".toList.isPrefixOf s = false ∧
        "tel:".toList.isPrefixOf s = false ∧
        "mailto:".toList.isPrefixOf s = true)) ∧
    classify_payload "httpfoo".toList = PayloadClass.url := by
  intro s
  refine ⟨?_, ?_, ?_, ?_, by decide⟩ <;>
  · cases h1 : "WIFI:".toList.isPrefixOf s <;>
      cases h2 : "http".toList.isPrefixOf s <;>
        cases h3 : "tel:".toList.isPrefixOf s <;>
          cases h4 : "mailto:".toList.isPrefixOf s <;>
            · simp only [classify_payload, h1, h2, h3, h4]
              simp

/-- C7: read_qr is total (it returns a Boolean, never raising): a
missing path or an empty decode result yields failure, and success
implies the path existed, at least one code was decoded and the report
on the first one was printed. -/
theorem C7_read_qr : ∀ (pathExists openOk : Bool)
    (codes : List (List Char)) (firstOk : Bool),
    (pathExists = false →
      read_qr_m pathExists openOk codes firstOk = false) ∧
    (codes = [] → read_qr_m pathExists openOk codes firstOk = false) ∧
    (read_qr_m pathExists openOk codes firstOk = true →
      pathExists = true ∧ codes ≠ [] ∧ firstOk = true) := by
  intro pe oo codes fo
  cases pe <;> cases oo <;> rcases codes with _ | ⟨c, cs⟩ <;> cases fo <;>
    simp [read_qr_m]

/-- Witness for C7: a missing path fails, and an existing path with an
empty decode list fails. -/
theorem C7_read_qr_witness :
    read_qr_m false true [] true = false ∧
      read_qr_m true true [] true = false :=
  ⟨(C7_read_qr false true [] true).1 rfl,
   (C7_read_qr true true [] true).2.1 rfl⟩

/-- C8: validate_input rejects empty text, whitespace-only text and
text longer than 2953 characters, and accepts any text that is nonempty
after stripping and within the limit. -/
theorem C8_validate :
    validate_input "".toList = (false, "Input text cannot be empty") ∧
    validate_input "   ".toList = (false, "Input text cannot be empty") ∧
    (∀ t : List Char, t.length > 2953 → (validate_input t).1 = false) ∧
    validate_input "hello".toList = (true, "Valid") ∧
    (∀ t : List Char, pyStrip t ≠ [] → t.length ≤ 2953 →
      validate_input t = (true, "Valid")) := by
  refine ⟨by decide, by decide, ?_, by decide, ?_⟩
  · intro t ht
    unfold validate_input
    by_cases hcase : t = [] ∨ pyStrip t = []
    · rw [if_pos hcase]
    · rw [if_neg hcase, if_pos ht]
  · intro t h1 h2
    have ht : ¬(t = [] ∨ pyStrip t = []) := by
      rintro (rfl | h)
      · exact h1 rfl
      · exact h1 h
    unfold validate_input
    rw [if_neg ht, if_neg (by omega)]

/-- Witness for C8: a 2954-character text fails, and the two-character
text ok is accepted through the general acceptance clause. -/
theorem C8_validate_witness :
    (List.replicate 2954 'a').length > 2953 ∧
      (validate_input (List.replicate 2954 'a')).1 = false ∧
      pyStrip "ok".toList ≠ [] ∧ "ok".toList.length ≤ 2953 ∧
      validate_input "ok".toList = (true, "Valid") :=
  ⟨by rw [List.length_replicate]; decide,
   C8_validate.2.2.1 _ (by rw [List.length_replicate]; decide),
   by decide, by decide,
   C8_validate.2.2.2.2 _ (by decide) (by decide)⟩

/-- C9: the color resolver is a total function: lookup is exact but
case-insensitive against the fixed 12-entry table, and unknown names
yield the role default (black for foreground, white for background). -/
theorem C9_color_resolver :
    color_map.length = 12 ∧
    (∀ n1 n2 : String, pyLower n1 = pyLower n2 →
      resolve_fg_color n1 = resolve_fg_color n2 ∧
      resolve_bg_color n1 = resolve_bg_color n2) ∧
    resolve_fg_color "RED" = (255, 0, 0) ∧
    resolve_fg_color "red" = (255, 0, 0) ∧
    resolve_bg_color "RED" = (255, 0, 0) ∧
    resolve_bg_color "red" = (255, 0, 0) ∧
    (∀ name : String, (∀ e ∈ color_map, e.1 ≠ pyLower name) →
      resolve_fg_color name = (0, 0, 0) ∧
      resolve_bg_color name = (255, 255, 255)) ∧
    resolve_fg_color "mauve" = (0, 0, 0) ∧
    resolve_bg_color "mauve" = (255, 255, 255) := by
  refine ⟨by decide, ?_, by decide, by decide, by decide, by decide, ?_,
    by decide, by decide⟩
  · intro n1 n2 h
    unfold resolve_fg_color resolve_bg_color
    rw [h]
    exact ⟨rfl, rfl⟩
  · intro name h
    have hnone : colorLookup (pyLower name) = none := by
      unfold colorLookup
      rw [List.find?_eq_none.mpr]
      · rfl
      · intro e he
        simp only [beq_iff_eq]
        exact h e he
    unfold resolve_fg_color resolve_bg_color
    rw [hnone]
    exact ⟨rfl, rfl⟩

/-- Witness for C9: case-insensitivity applied at RED/red and the
defaults applied at the unknown name mauve. -/
theorem C9_color_resolver_witness :
    resolve_fg_color "RED" = resolve_fg_color "red" ∧
      resolve_fg_color "mauve" = (0, 0, 0) ∧
      resolve_bg_color "mauve" = (255, 255, 255) :=
  ⟨(C9_color_resolver.2.1 "RED" "red" (by decide)).1,
   (C9_color_resolver.2.2.2.2.2.2.1 "mauve" (by decide)).1,
   (C9_color_resolver.2.2.2.2.2.2.1 "mauve" (by decide)).2⟩

/-- C5: for default black-on-white the PNG branch delegates to the
built-in raster writer at scale 10; for any other color pair the custom
renderer runs; if the custom renderer fails for any reason the operation
falls back to the built-in writer at the same output path instead of
propagating the error. -/
theorem C5_png_dispatch : ∀ (o : Oracles) (path fgName bgName : String),
    (fgName = "black" ∧ bgName = "white" →
      pngStep o path fgName bgName =
        (if o.pngOk then some [Artifact.pngBuiltin path 10] else none)) ∧
    (¬(fgName = "black" ∧ bgName = "white") →
      pngStep o path fgName bgName =
        generate_colored_qr_m o path fgName bgName) ∧
    (o.customOk = true →
      generate_colored_qr_m o path fgName bgName =
        some [Artifact.pngCustom path fgName bgName 10]) ∧
    (o.customOk = false →
      generate_colored_qr_m o path fgName bgName =
        (if o.pngOk then some [Artifact.pngBuiltin path 10] else none)) := by
  intro o path fgName bgName
  refine ⟨fun h => ?_, fun h => ?_, fun h => ?_, fun h => ?_⟩
  · unfold pngStep
    rw [if_pos h]
  · unfold pngStep
    rw [if_neg h]
  · unfold generate_colored_qr_m
    rw [if_pos h]
  · unfold generate_colored_qr_m
    rw [if_neg (by simp [h])]

/-- Witness for C5: default colors go to the built-in writer, and a
failing custom renderer falls back to the built-in writer. -/
theorem C5_png_dispatch_witness :
    pngStep ⟨true, true, true, false⟩ "p" "black" "white" =
        some [Artifact.pngBuiltin "p" 10] ∧
      generate_colored_qr_m ⟨true, true, true, false⟩ "p" "blue" "yellow" =
        some [Artifact.pngBuiltin "p" 10] :=
  ⟨(C5_png_dispatch ⟨true, true, true, false⟩ "p" "black" "white").1
      ⟨rfl, rfl⟩,
   (C5_png_dispatch ⟨true, true, true, false⟩ "p" "blue" "yellow").2.2.2 rfl⟩

/-- C6: generate_qr never raises (it returns a Boolean) and it reports
failure exactly when one of the steps it runs raises: the encode step,
the SVG write for svg format, the PNG step for png format, or either
write for both format. -/
theorem C6_generate_qr_failure : ∀ (o : Oracles) (rawText : List Char)
    (fileName fmt fgName bgName : String),
    (generate_qr_m o rawText fileName fmt fgName bgName).1 = false ↔
      (o.encodeOk = false ∨
        (pyLower fmt = "svg" ∧ o.svgOk = false) ∨
        (pyLower fmt = "png" ∧ pngStep o fileName fgName bgName = none) ∨
        (pyLower fmt = "both" ∧ (o.svgOk = false ∨
          pngStep o fileName fgName bgName = none))) := by
  intro o rawText fileName fmt fgName bgName
  unfold generate_qr_m
  cases he : o.encodeOk
  · simp [he]
  · by_cases h1 : pyLower fmt = "svg"
    · cases hs : o.svgOk <;> simp [he, h1, hs]
    · by_cases h2 : pyLower fmt = "png"
      · rcases hp : pngStep o fileName fgName bgName with _ | arts <;>
          simp [he, h1, h2, hp]
      · by_cases h3 : pyLower fmt = "both"
        · cases hs : o.svgOk
          · simp [he, h1, h2, h3, hs]
          · rcases hp : pngStep o fileName fgName bgName with _ | arts <;>
              simp [he, h1, h2, h3, hs, hp]
        · simp [he, h1, h2, h3]

/-- C10 (implicit): generate_wifi_qr always calls generate_qr with the
defaults png, black, white; consequently every artifact it can write is
the built-in black/white PNG, and a successful call writes exactly that
one artifact (never an SVG, never a custom-colored image). -/
theorem C10_wifi_defaults : ∀ (o : Oracles)
    (ssid password security : List Char) (hidden : Bool)
    (fileName tsName : String),
    (generate_wifi_qr_m o ssid password security hidden fileName tsName =
      generate_qr_m o (generate_wifi_string ssid password security hidden)
        (if fileName = "" then tsName else fileName)
        "png" "black" "white") ∧
    (∀ a ∈ (generate_wifi_qr_m o ssid password security hidden
        fileName tsName).2,
      a = Artifact.pngBuiltin
        (if fileName = "" then tsName else fileName) 10) ∧
    ((generate_wifi_qr_m o ssid password security hidden
        fileName tsName).1 = true →
      (generate_wifi_qr_m o ssid password security hidden fileName
          tsName).2 =
        [Artifact.pngBuiltin
          (if fileName = "" then tsName else fileName) 10]) := by
  intro o ssid password security hidden fileName tsName
  have hlow : pyLower "png" = "png" := rfl
  obtain ⟨e, sv, p, c⟩ := o
  refine ⟨rfl, ?_, ?_⟩ <;>
  · cases e <;> cases sv <;> cases p <;> cases c <;>
      simp [generate_wifi_qr_m, generate_qr_m, pngStep,
        generate_colored_qr_m, hlow]

/-- Witness for C10: with all steps succeeding, the call writes exactly
the one built-in black/white PNG. -/
theorem C10_wifi_defaults_witness :
    (generate_wifi_qr_m ⟨true, true, true, true⟩ "n".toList "p".toList
        "WPA".toList false "out" "ts").2 =
      [Artifact.pngBuiltin "out" 10] :=
  (C10_wifi_defaults ⟨true, true, true, true⟩ "n".toList "p".toList
    "WPA".toList false "out" "ts").2.2 rfl

lemma find?_overwrite_self (m : List (List Char × List Char))
    (k v : List Char) :
    ((m.map (fun kv => if kv.1 == k then (k, v) else kv)).find?
      (fun kv => kv.1 == k)) =
      (m.find? (fun kv => kv.1 == k)).map (fun _ => (k, v)) := by
  induction m with
  | nil => rfl
  | cons kv m' ih =>
    rw [List.map_cons]
    by_cases h : (kv.1 == k) = true
    · rw [if_pos h]
      simp only [List.find?, h, beq_self_eq_true]
      rfl
    · rw [if_neg h]
      have h' : (kv.1 == k) = false := by simpa using h
      simp only [List.find?, h', ih]

lemma dictGet_insert_self (m : List (List Char × List Char))
    (k v : List Char) : dictGet (dictInsert m k v) k = some v := by
  unfold dictGet dictInsert
  by_cases hany : (m.any fun kv => kv.1 == k) = true
  · rw [if_pos hany, find?_overwrite_self]
    rcases hf : m.find? (fun kv => kv.1 == k) with _ | kv0
    · obtain ⟨x, hx, hpx⟩ := List.any_eq_true.mp hany
      exact absurd hpx (by simp [List.find?_eq_none.mp hf x hx])
    · simp [hf]
  · rw [if_neg hany, List.find?_append]
    have hnone : m.find? (fun kv => kv.1 == k) = none := by
      rw [List.find?_eq_none]
      intro x hx hpx
      exact hany (List.any_eq_true.mpr ⟨x, hx, hpx⟩)
    rw [hnone, List.find?_cons_of_pos _ (by simp)]
    rfl

lemma find?_overwrite_ne (m : List (List Char × List Char))
    (k' v k : List Char) (hne : k' ≠ k) :
    ((m.map (fun kv => if kv.1 == k' then (k', v) else kv)).find?
      (fun kv => kv.1 == k)) = m.find? (fun kv => kv.1 == k) := by
  have h1 : (k' == k) = false := by
    simp only [beq_eq_false_iff_ne]
    exact hne
  induction m with
  | nil => rfl
  | cons kv m' ih =>
    rw [List.map_cons]
    by_cases h : (kv.1 == k') = true
    · have hkv : kv.1 = k' := eq_of_beq h
      have h2 : (kv.1 == k) = false := by rw [hkv]; exact h1
      rw [if_pos h]
      simp only [List.find?, h1, h2, ih]
    · have h' : (kv.1 == k') = false := by simpa using h
      rw [if_neg h]
      cases hpk : kv.1 == k
      · simp only [List.find?, hpk, ih]
      · simp only [List.find?, hpk]

lemma dictGet_insert_ne (m : List (List Char × List Char))
    (k' v k : List Char) (hne : k' ≠ k) :
    dictGet (dictInsert m k' v) k = dictGet m k := by
  unfold dictGet dictInsert
  by_cases hany : (m.any fun kv => kv.1 == k') = true
  · rw [if_pos hany, find?_overwrite_ne m k' v k hne]
  · rw [if_neg hany, List.find?_append]
    have h1 : (k' == k) = false := by
      simp only [beq_eq_false_iff_ne]
      exact hne
    rw [List.find?_cons_of_neg _ (by simp [h1])]
    simp

/-- The dict built by the segment loop, observed through `get`: the
value of the last colon-containing segment whose key is `k`, searched
from the end, with the initial dict as fallback. -/
lemma wifiFold_get (parts : List (List Char))
    (m : List (List Char × List Char)) (k : List Char) :
    dictGet (parts.foldl wifiStep m) k =
      ((((parts.filterMap splitOnce).reverse.find?
        (fun kv => kv.1 == k)).map Prod.snd).or (dictGet m k)) := by
  induction parts generalizing m with
  | nil => simp
  | cons part rest ih =>
    rw [List.foldl_cons, ih]
    rcases hsp : splitOnce part with _ | kv
    · simp [wifiStep, hsp]
    · have hstep : wifiStep m part = dictInsert m kv.1 kv.2 := by
        simp [wifiStep, hsp]
      rw [hstep]
      simp only [List.filterMap_cons, hsp, List.reverse_cons,
        List.find?_append]
      cases hk : kv.1 == k
      · have hne : kv.1 ≠ k := by
          have := hk
          simp only [beq_eq_false_iff_ne] at this
          exact this
        rw [dictGet_insert_ne m kv.1 kv.2 k hne]
        simp [List.find?, hk]
      · have heq : kv.1 = k := eq_of_beq hk
        subst heq
        rw [dictGet_insert_self]
        rcases hrf : (List.filterMap splitOnce rest).reverse.find?
            (fun kv2 => kv2.1 == kv.1) with _ | kv0 <;>
          simp [List.find?, hk, hrf]

/-- C2, amended: the decode removes every occurrence of the marker
WIFI: (not only a leading one), splits the remaining text on the
semicolon, and for each segment containing a colon splits it at its
first colon into a key and a value, later segments overwriting earlier
ones with the same key; segments without a colon contribute nothing,
and the mapping holds only the keys actually found. -/
theorem C2_decode_amended : ∀ s k : List Char,
    dictGet (parse_wifi_qr s) k =
      ((((splitSemi (replaceWifi s)).filterMap splitOnce).reverse.find?
        (fun kv => kv.1 == k)).map Prod.snd) ∧
    (dictGet (parse_wifi_qr s) k ≠ none →
      k ∈ (((splitSemi (replaceWifi s)).filterMap splitOnce).map
        Prod.fst)) := by
  intro s k
  have hmain : dictGet (parse_wifi_qr s) k =
      ((((splitSemi (replaceWifi s)).filterMap splitOnce).reverse.find?
        (fun kv => kv.1 == k)).map Prod.snd) := by
    unfold parse_wifi_qr wifiInfoFold
    rw [wifiFold_get]
    simp [dictGet]
  refine ⟨hmain, ?_⟩
  intro hne
  rw [hmain] at hne
  rcases hf : ((splitSemi (replaceWifi s)).filterMap splitOnce).reverse.find?
      (fun kv => kv.1 == k) with _ | kv
  · rw [hf] at hne
    simp at hne
  · have hmem := List.mem_of_find?_eq_some hf
    rw [List.mem_reverse] at hmem
    have hpred := List.find?_some hf
    have hkey : kv.1 = k := eq_of_beq hpred
    rw [← hkey]
    exact List.mem_map_of_mem _ hmem

/-- Witness for C2 (amended): on the payload WIFI:S:x;; the key S is
among the keys found. -/
theorem C2_decode_amended_witness :
    ['S'] ∈ (((splitSemi (replaceWifi "WIFI:S:x;;".toList)).filterMap
      splitOnce).map Prod.fst) :=
  (C2_decode_amended "WIFI:S:x;;".toList ['S']).2 (by decide)

lemma drawRowFold_cols_pixel (m : List (List Bool)) (size : Nat)
    (fg : Nat × Nat × Nat) (r x y : Nat) :
    ∀ (cols : List Nat) (img : Nat → Nat → Nat × Nat × Nat),
    (cols.foldl
      (fun im c => if cellAt m r c then paintCell size fg r c im else im)
      img) x y =
      if ∃ c ∈ cols, cellAt m r c = true ∧ covers size r c x y then fg
      else img x y := by
  intro cols
  induction cols with
  | nil =>
    intro img
    simp
  | cons c0 cols ih =>
    intro img
    rw [List.foldl_cons, ih]
    by_cases hex : ∃ c ∈ cols, cellAt m r c = true ∧ covers size r c x y
    · obtain ⟨c, hm, hr⟩ := hex
      rw [if_pos ⟨c, hm, hr⟩, if_pos ⟨c, List.mem_cons_of_mem _ hm, hr⟩]
    · by_cases hc0 : cellAt m r c0 = true
      · by_cases hcov : covers size r c0 x y
        · rw [if_neg hex, if_pos hc0,
            if_pos ⟨c0, List.mem_cons_self _ _, hc0, hcov⟩]
          simp [paintCell, hcov]
        · have hnone : ¬∃ c ∈ c0 :: cols,
              cellAt m r c = true ∧ covers size r c x y := by
            rintro ⟨c, hm, hcell, hcover⟩
            rcases List.mem_cons.mp hm with rfl | hm'
            · exact hcov hcover
            · exact hex ⟨c, hm', hcell, hcover⟩
          rw [if_neg hex, if_pos hc0, if_neg hnone]
          simp [paintCell, hcov]
      · have hnone : ¬∃ c ∈ c0 :: cols,
            cellAt m r c = true ∧ covers size r c x y := by
          rintro ⟨c, hm, hcell, hcover⟩
          rcases List.mem_cons.mp hm with rfl | hm'
          · exact hc0 hcell
          · exact hex ⟨c, hm', hcell, hcover⟩
        rw [if_neg hex, if_neg hc0, if_neg hnone]

lemma drawRowFold_pixel (m : List (List Bool)) (size : Nat)
    (fg : Nat × Nat × Nat) (r : Nat)
    (img : Nat → Nat → Nat × Nat × Nat) (x y : Nat) :
    drawRowFold m size fg r img x y =
      if ∃ c ∈ List.range m.length, cellAt m r c = true ∧
          covers size r c x y then fg
      else img x y :=
  drawRowFold_cols_pixel m size fg r x y (List.range m.length) img

lemma drawModulesFold_rows_pixel (m : List (List Bool)) (size : Nat)
    (fg : Nat × Nat × Nat) (x y : Nat) :
    ∀ (rows : List Nat) (img : Nat → Nat → Nat × Nat × Nat),
    (rows.foldl (fun im r => drawRowFold m size fg r im) img) x y =
      if ∃ r ∈ rows, ∃ c ∈ List.range m.length,
          cellAt m r c = true ∧ covers size r c x y then fg
      else img x y := by
  intro rows
  induction rows with
  | nil =>
    intro img
    simp
  | cons r0 rows ih =>
    intro img
    rw [List.foldl_cons, ih]
    by_cases hex : ∃ r ∈ rows, ∃ c ∈ List.range m.length,
        cellAt m r c = true ∧ covers size r c x y
    · obtain ⟨r, hm, hr⟩ := hex
      rw [if_pos ⟨r, hm, hr⟩, if_pos ⟨r, List.mem_cons_of_mem _ hm, hr⟩]
    · rw [if_neg hex, drawRowFold_pixel]
      by_cases hrow : ∃ c ∈ List.range m.length,
          cellAt m r0 c = true ∧ covers size r0 c x y
      · rw [if_pos hrow, if_pos ⟨r0, List.mem_cons_self _ _, hrow⟩]
      · have hnone : ¬∃ r ∈ r0 :: rows, ∃ c ∈ List.range m.length,
            cellAt m r c = true ∧ covers size r c x y := by
          rintro ⟨r, hm, hr⟩
          rcases List.mem_cons.mp hm with rfl | hm'
          · exact hrow hr
          · exact hex ⟨r, hm', hr⟩
        rw [if_neg hrow, if_neg hnone]

/-- One pixel of the custom raster output: the foreground color when
some true module's painted rectangle reaches the pixel, the background
color otherwise. -/
lemma generate_colored_pixel (m : List (List Bool))
    (fgName bgName : String) (x y : Nat) :
    generate_colored_qr_pixels m fgName bgName x y =
      if ∃ r ∈ List.range m.length, ∃ c ∈ List.range m.length,
          cellAt m r c = true ∧ covers (m.length * 10) r c x y
      then resolve_fg_color fgName else resolve_bg_color bgName :=
  drawModulesFold_rows_pixel m (m.length * 10) (resolve_fg_color fgName)
    x y (List.range m.length) (fun _ _ => resolve_bg_color bgName)

lemma firstTrue_spec : ∀ (row : List Bool) (c : Nat),
    firstTrue row = some c → row.getD c false = true ∧ c < row.length := by
  intro row
  induction row with
  | nil =>
    intro c h
    exact absurd h (by simp [firstTrue])
  | cons b rest ih =>
    intro c h
    cases hb : b
    · rw [hb] at h
      simp only [firstTrue, Bool.false_eq_true, if_false] at h
      rcases hm : firstTrue rest with _ | c'
      · rw [hm] at h
        simp at h
      · rw [hm] at h
        simp only [Option.map_some', Option.some.injEq] at h
        subst h
        obtain ⟨h1, h2⟩ := ih c' hm
        refine ⟨by simpa using h1, ?_⟩
        simp only [List.length_cons]
        omega
    · rw [hb] at h
      simp only [firstTrue] at h
      have hc : c = 0 := by
        simpa using h.symm
      subst hc
      exact ⟨by simp, by simp⟩

lemma firstDarkAux_spec : ∀ (rows : List (List Bool)) (i r c : Nat),
    firstDarkAux i rows = some (r, c) →
      i ≤ r ∧ r - i < rows.length ∧
      (rows.getD (r - i) []).getD c false = true ∧
      c < (rows.getD (r - i) []).length := by
  intro rows
  induction rows with
  | nil =>
    intro i r c h
    exact absurd h (by simp [firstDarkAux])
  | cons row rest ih =>
    intro i r c h
    simp only [firstDarkAux] at h
    rcases hf : firstTrue row with _ | c0
    · rw [hf] at h
      simp only [] at h
      obtain ⟨h1, h2, h3, h4⟩ := ih (i + 1) r c h
      have hle : i ≤ r := by omega
      have hri : r - i = (r - (i + 1)) + 1 := by omega
      rw [hri]
      refine ⟨hle, ?_, by simpa using h3, by simpa using h4⟩
      simp only [List.length_cons]
      omega
    · rw [hf] at h
      simp only [Option.some.injEq, Prod.mk.injEq] at h
      obtain ⟨hr, hc⟩ := h
      subst hr
      subst hc
      obtain ⟨h1, h2⟩ := firstTrue_spec row c0 hf
      refine ⟨le_refl _, by simp, ?_, ?_⟩
      · simpa using h1
      · simpa using h2

lemma firstDark_spec (m : List (List Bool)) (r c : Nat)
    (h : firstDark m = some (r, c)) :
    r < m.length ∧ (m.getD r []).getD c false = true ∧
      c < (m.getD r []).length := by
  obtain ⟨h1, h2, h3, h4⟩ := firstDarkAux_spec m 0 r c h
  simp only [Nat.sub_zero] at h2 h3 h4
  exact ⟨h2, h3, h4⟩

/-- C3 counterexample: rendering the all-dark 21-by-21 matrix with
foreground blue and background yellow makes the corner pixel (0,0) blue,
not yellow, so the corner clause of the claim fails for a 21-by-21
matrix whose top-left module is dark. -/
theorem C3_colored_render_counterexample :
    (List.replicate 21 (List.replicate 21 true)).length = 21 ∧
    (∀ row ∈ List.replicate 21 (List.replicate 21 true),
      row.length = 21) ∧
    generate_colored_qr_pixels (List.replicate 21 (List.replicate 21 true))
      "blue" "yellow" 0 0 = (0, 0, 255) ∧
    ((0, 0, 255) : Nat × Nat × Nat) ≠ (255, 255, 0) := by
  refine ⟨by decide, ?_, ?_, by decide⟩
  · intro row hrow
    rw [List.eq_of_mem_replicate hrow]
    decide
  · have hcond : ∃ r ∈ List.range
        (List.replicate 21 (List.replicate 21 true)).length,
        ∃ c ∈ List.range
          (List.replicate 21 (List.replicate 21 true)).length,
        cellAt (List.replicate 21 (List.replicate 21 true)) r c = true ∧
          covers ((List.replicate 21 (List.replicate 21 true)).length * 10)
            r c 0 0 :=
      ⟨0, by decide, 0, by decide, by decide, by decide⟩
    rw [generate_colored_pixel, if_pos hcond]
    decide

/-- C3, amended: for a 21-by-21 matrix rendered with foreground blue and
background yellow at scale 10, the corner pixel (0,0) is the yellow
triple provided the top-left module is light, and every pixel of the
10-by-10 block of the first dark module is the blue triple. -/
theorem C3_colored_render (m : List (List Bool)) (r c : Nat)
    (hrows : m.length = 21) (hcols : ∀ row ∈ m, row.length = 21)
    (h00 : cellAt m 0 0 = false)
    (hfirst : firstDark m = some (r, c)) :
    generate_colored_qr_pixels m "blue" "yellow" 0 0 = (255, 255, 0) ∧
    ∀ dx dy : Nat, dx < 10 → dy < 10 →
      generate_colored_qr_pixels m "blue" "yellow" (c * 10 + dx)
        (r * 10 + dy) = (0, 0, 255) := by
  have hfg : resolve_fg_color "blue" = (0, 0, 255) := by decide
  have hbg : resolve_bg_color "yellow" = (255, 255, 0) := by decide
  obtain ⟨hr, hcell, hc⟩ := firstDark_spec m r c hfirst
  have hrowlen : (m.getD r []).length = 21 := by
    apply hcols
    rw [List.getD_eq_getElem _ _ (hrows ▸ hr)]
    exact List.getElem_mem _
  constructor
  · have hnone : ¬∃ r' ∈ List.range m.length, ∃ c' ∈ List.range m.length,
        cellAt m r' c' = true ∧ covers (m.length * 10) r' c' 0 0 := by
      rintro ⟨r', hr', c', hc', hcell', hcov⟩
      obtain ⟨w1, w2, w3, w4, w5, w6⟩ := hcov
      have hc0 : c' = 0 := by omega
      have hr0 : r' = 0 := by omega
      rw [hc0, hr0] at hcell'
      rw [h00] at hcell'
      exact absurd hcell' (by simp)
    rw [generate_colored_pixel, if_neg hnone, hbg]
  · intro dx dy hdx hdy
    have hcond : ∃ r' ∈ List.range m.length, ∃ c' ∈ List.range m.length,
        cellAt m r' c' = true ∧
          covers (m.length * 10) r' c' (c * 10 + dx) (r * 10 + dy) := by
      refine ⟨r, by simpa using hr, c, ?_, hcell, ?_⟩
      · simp only [List.mem_range]
        omega
      · unfold covers
        have hcb : c < 21 := by omega
        have hrb : r < 21 := hrows ▸ hr
        refine ⟨by omega, by omega, by omega, by omega, ?_, ?_⟩
        · rw [hrows]
          omega
        · rw [hrows]
          omega
    rw [generate_colored_pixel, if_pos hcond, hfg]

/-- Witness for C3 (amended): a concrete 21-by-21 matrix with a light
top-left module and first dark module at (0, 1): the corner pixel is
yellow and a pixel of the first dark block is blue. -/
theorem C3_colored_render_witness :
    generate_colored_qr_pixels
        ((false :: List.replicate 20 true) ::
          List.replicate 20 (List.replicate 21 true)) "blue" "yellow"
        0 0 = (255, 255, 0) ∧
      generate_colored_qr_pixels
        ((false :: List.replicate 20 true) ::
          List.replicate 20 (List.replicate 21 true)) "blue" "yellow"
        10 0 = (0, 0, 255) := by
  have h := C3_colored_render
    ((false :: List.replicate 20 true) ::
      List.replicate 20 (List.replicate 21 true)) 0 1
    (by decide)
    (by
      intro row hrow
      rcases List.mem_cons.mp hrow with rfl | hmem
      · decide
      · rw [List.eq_of_mem_replicate hmem]
        decide)
    (by decide) (by decide)
  exact ⟨h.1, by simpa using h.2 0 0 (by decide) (by decide)⟩

end QrGen
